import Mathlib

/-!
Shallow embedding of the `effortless` runtime-statistics library
(`src/include/effortless/statistic.hpp` and `src/include/effortless/timer.hpp`).

Doubles are idealised as exact rationals `ℚ`; the non-finite IEEE values
(NaN, plus and minus infinity) that the code guards against are made explicit
by the `Val` wrapper.  The `double` sentinels used by the constructor and by
`reset()` — `std::numeric_limits<double>::max()` and
`std::numeric_limits<double>::min()` — are the exact rational values of those
doubles.  Integer nanosecond counts stand in for `high_resolution_clock`
time points, so elapsed time is `(t_end - t_start) / 10^9` seconds.
-/

namespace Effortless

/-- Exact value of `std::numeric_limits<double>::max()`:
the largest finite IEEE-754 binary64 value, `(2^53 - 1) * 2^971`. -/
def DBL_MAX : ℚ := (2 ^ 53 - 1) * 2 ^ 971

/-- Exact value of `std::numeric_limits<double>::min()`:
the smallest positive normal IEEE-754 binary64 value, `2^(-1022)`.
Note this is a tiny positive number, not the most negative double. -/
def DBL_MIN : ℚ := 1 / 2 ^ 1022

/-- A `double` as consumed and produced by the library: either a finite value
(idealised as a rational) or one of the non-finite IEEE values. -/
inductive Val where
  | fin : ℚ → Val
  | nan : Val
  | posInf : Val
  | negInf : Val
deriving DecidableEq

/-- `std::isfinite`: true exactly on finite values. -/
def Val.isfinite : Val → Bool
  | Val.fin _ => true
  | _ => false

/-- `effortless::Statistic` (src/include/effortless/statistic.hpp): member
fields `name_`, `n_`, `sum_`, `ssum_`, `last_`, `min_`, `max_`. -/
structure Statistic where
  name : String
  n : ℕ
  sum : ℚ
  ssum : ℚ
  last : ℚ
  min : ℚ
  max : ℚ
deriving DecidableEq

/-- The constructor `Statistic(const std::string &name = "Statistic")`
with the member initialisers `n_{0}`, `sum_{0.0}`, `ssum_{0.0}`, `last_{0.0}`,
`min_{std::numeric_limits<Scalar>::max()}`,
`max_{std::numeric_limits<Scalar>::min()}`. -/
def Statistic.init (name : String) : Statistic :=
  { name := name, n := 0, sum := 0, ssum := 0, last := 0,
    min := DBL_MAX, max := DBL_MIN }

/-- `Scalar Statistic::operator<<(const Scalar in)` (also exposed as `add`):
non-finite input returns `quiet_NaN()` without touching any field; a finite
input bumps `n_`, accumulates `sum_` and `ssum_`, records `last_`, updates
`min_`/`max_`, and returns `mean()`.  The result pairs the post-call object
state with the returned scalar. -/
def Statistic.add (s : Statistic) (v : Val) : Statistic × Val :=
  match v with
  | Val.fin q =>
    let s2 : Statistic :=
      { s with n := s.n + 1, sum := s.sum + q, ssum := s.ssum + q * q,
               last := q, min := Min.min q s.min, max := Max.max q s.max }
    (s2, Val.fin (s2.sum / (s2.n : ℚ)))
  | _ => (s, Val.nan)

/-- `Scalar Statistic::mean()`: `sum_ / (Scalar)n_`. -/
def Statistic.mean (s : Statistic) : ℚ := s.sum / (s.n : ℚ)

/-- The square of `Scalar Statistic::std()`: the code returns `0` when
`n_ == 0` and `sqrt(ssum_ / n_ - mean() * mean())` otherwise, so its square
is the quantity below (the radicand is non-negative for states reached by
adding samples). -/
def Statistic.stdSq (s : Statistic) : ℚ :=
  if s.n = 0 then 0 else s.ssum / (s.n : ℚ) - s.mean * s.mean

/-- `void Statistic::reset()`: zeroes `n_`, `sum_`, `ssum_`, `last_` and
restores the sentinels `min_ = numeric_limits::max()`,
`max_ = numeric_limits::min()`; `name_` is untouched. -/
def Statistic.reset (s : Statistic) : Statistic :=
  { s with n := 0, sum := 0, ssum := 0, last := 0,
           min := DBL_MAX, max := DBL_MIN }

/-- `Statistic &Statistic::operator=(const Statistic &rhs)`: copies `n_`,
`last_`, `min_`, `max_`, `sum_`, `ssum_`; the `const` member `name_` is not
assigned. -/
def Statistic.assign (a b : Statistic) : Statistic :=
  { a with n := b.n, last := b.last, min := b.min, max := b.max,
           sum := b.sum, ssum := b.ssum }

/-- The six statistics fields of a `Statistic`, i.e. everything
`operator=` copies and everything the numeric accessors read. -/
def Statistic.stats (s : Statistic) : ℕ × ℚ × ℚ × ℚ × ℚ × ℚ :=
  (s.n, s.sum, s.ssum, s.last, s.min, s.max)

/-- Adding a list of finite samples in order through `operator<<`,
keeping only the accumulator state. -/
def Statistic.addList (s : Statistic) (l : List ℚ) : Statistic :=
  l.foldl (fun a q => (a.add (Val.fin q)).1) s

/-- `effortless::Timer` (src/include/effortless/timer.hpp): a `Statistic`
plus the pending start `t_start_` (a `high_resolution_clock::time_point`,
modelled as an integer count of nanoseconds since the epoch, so that the
default-constructed `TimePoint()` is `0`) and the list `nested_timers_`. -/
inductive Timer where
  | mk : Statistic → ℤ → List Timer → Timer

/-- The owned accumulator of a timer. -/
def Timer.stat : Timer → Statistic
  | Timer.mk s _ _ => s

/-- The pending start `t_start_`, in nanoseconds since the epoch. -/
def Timer.tstart : Timer → ℤ
  | Timer.mk _ t _ => t

/-- The `nested_timers_` children, in insertion order. -/
def Timer.nested : Timer → List Timer
  | Timer.mk _ _ cs => cs

/-- The constructor `Timer(const std::string name = "")`: the accumulator is
`Statistic("Timer " + name)` and `t_start_` is the default-constructed
time point (the epoch). -/
def Timer.init (name : String) : Timer :=
  Timer.mk (Statistic.init ("Timer " ++ name)) 0 []

/-- `void Timer::tic()`: records now as the pending start. -/
def Timer.tic : Timer → ℤ → Timer
  | Timer.mk s _ cs, now => Timer.mk s now cs

/-- `T Timer::toc()`, given the clock reading `now` in nanoseconds:
computes `dt = 1e-9 * nanoseconds(t_end - t_start_)`, re-records `now` as the
new pending start (`t_start_ = t_end`), and returns `this->add(dt)`.
The result pairs the post-call timer with the returned scalar. -/
def Timer.toc : Timer → ℤ → Timer × Val
  | Timer.mk s t0 cs, now =>
    let dt : ℚ := ((now - t0 : ℤ) : ℚ) / 1000000000
    let r := Statistic.add s (Val.fin dt)
    (Timer.mk r.1 now cs, r.2)

/-- `void Timer::reset()`: `t_start_ = TimePoint()` (the epoch) and
`Statistic::reset()`; children are kept. -/
def Timer.reset : Timer → Timer
  | Timer.mk s _ cs => Timer.mk s.reset 0 cs

/-- The C-style `(int)` cast applied by `printNested` to the percentage:
truncation toward zero of a rational (floor for non-negative values, ceiling
for negative ones). -/
def castToInt (q : ℚ) : ℤ := if 0 ≤ q then ⌊q⌋ else ⌈q⌉

/-- The percentage field of a rendered line: `printNested` prints
`(int)(100.0 * this->sum_ / parent_sum)` followed by a percent sign when
`parent_sum != 0.0`, and five blank spaces (no percentage) otherwise. -/
def pctField (sum parent_sum : ℚ) : Option ℤ :=
  if parent_sum ≠ 0 then some (castToInt (100 * sum / parent_sum)) else none

/-- One line of the report produced by `Timer::printNested`, keeping the
structured content of the line: nesting level, name, the node total `sum_`
in seconds, the optional percentage-of-parent field, and the call count.
A node with no samples renders the placeholder "has no sample yet." line. -/
inductive RenderLine where
  | noSample : ℕ → String → RenderLine
  | line : ℕ → String → ℚ → Option ℤ → ℕ → RenderLine
deriving DecidableEq

mutual

/-- `std::string Timer::printNested(const int level, const T parent_sum)`:
if the node has no samples it renders only the placeholder and stops; else it
renders its own line — with the percentage present exactly when
`parent_sum != 0.0` — and then every nested timer in insertion order at
`level + 1` with `parent_sum = this->sum_`. -/
def Timer.render : Timer → ℕ → ℚ → List RenderLine
  | Timer.mk s _ cs, level, parent_sum =>
    if s.n < 1 then [RenderLine.noSample level s.name]
    else
      RenderLine.line level s.name s.sum (pctField s.sum parent_sum) s.n ::
        Timer.renderChildren cs (level + 1) s.sum

/-- The loop over `nested_timers_` at the end of `printNested`. -/
def Timer.renderChildren : List Timer → ℕ → ℚ → List RenderLine
  | [], _, _ => []
  | c :: cs, level, psum =>
      Timer.render c level psum ++ Timer.renderChildren cs level psum

end

/-- Modelled from the spec: the capped (bounded-influence) accumulator
variant — the templated `Statistic` that `timer.hpp` inherits from — is not
present under `src/`; only the uncapped `statistic.hpp` variant is.  Spec
§3/§4.1: attributes `count`, `mean`, `m2` (Welford form), `last`, `min`,
`max`, and an optional `cap`; the `±∞` sentinels of `min`/`max` are modelled
as `none`. -/
structure CappedStatistic where
  cap : Option ℕ
  n : ℕ
  mean : ℚ
  m2 : ℚ
  last : ℚ
  minv : Option ℚ
  maxv : Option ℚ
deriving DecidableEq

/-- Modelled from the spec: creation "with an optional cap (default:
unbounded)" and the virgin state `count = 0`, `mean = 0`, `m2 = 0`,
`last = 0`, `min = +∞`, `max = −∞`. -/
def CappedStatistic.init (cap : Option ℕ) : CappedStatistic :=
  { cap := cap, n := 0, mean := 0, m2 := 0, last := 0,
    minv := none, maxv := none }

/-- Modelled from the spec, `add(value)` on a finite value: "`count`
increments by 1, unless a cap is set and already reached, in which case
`count` stays pinned at `cap`"; `mean ← mean + (value − mean) / effective_n`
with `effective_n` the post-increment count; `m2` via the two-term Welford
recurrence; `min`/`max`/`last` updated. -/
def CappedStatistic.addFin (s : CappedStatistic) (q : ℚ) : CappedStatistic :=
  let n2 : ℕ :=
    match s.cap with
    | some c => if c ≤ s.n then c else s.n + 1
    | none => s.n + 1
  let mean2 : ℚ := s.mean + (q - s.mean) / (n2 : ℚ)
  { s with n := n2, mean := mean2, m2 := s.m2 + (q - s.mean) * (q - mean2),
           last := q,
           minv := some (match s.minv with
                         | none => q
                         | some m => Min.min m q),
           maxv := some (match s.maxv with
                         | none => q
                         | some m => Max.max m q) }

/-- The value the spec claims for `std()` squared: `m2 / (count - 1)` with
`m2 = ssum - n * mean^2` (the sum of squared deviations), when `count > 1`,
else `0` — the Bessel-corrected sample variance.  Stated from the spec's
words, to be compared with `Statistic.stdSq` from the source. -/
def Statistic.stdSpecSq (s : Statistic) : ℚ :=
  if 1 < s.n then (s.ssum - (s.n : ℚ) * s.mean * s.mean) / ((s.n : ℚ) - 1)
  else 0

/-- Concrete child accumulator used for the rendering claims. -/
def cStat : Statistic :=
  { name := "C", n := 1, sum := 2, ssum := 4, last := 2, min := 2, max := 2 }

/-- Concrete parent accumulator used for the rendering claims. -/
def pStat : Statistic :=
  { name := "P", n := 1, sum := 3, ssum := 9, last := 3, min := 3, max := 3 }

theorem addList_fields (s : Statistic) (l : List ℚ) :
    (s.addList l).n = s.n + l.length ∧
    (s.addList l).sum = s.sum + l.sum ∧
    (s.addList l).ssum = s.ssum + (l.map (fun x => x * x)).sum := by
  induction l generalizing s with
  | nil => simp [Statistic.addList]
  | cons a t ih =>
    have step : s.addList (a :: t) = ((s.add (Val.fin a)).1).addList t := rfl
    obtain ⟨h1, h2, h3⟩ := ih ((s.add (Val.fin a)).1)
    rw [step, h1, h2, h3]
    simp only [Statistic.add, List.length_cons, List.sum_cons, List.map_cons]
    refine ⟨by omega, by ring, by ring⟩

theorem sum_sq_dev (l : List ℚ) (m : ℚ) :
    (l.map (fun x => (x - m) ^ 2)).sum
      = (l.map (fun x => x * x)).sum - 2 * m * l.sum + (l.length : ℚ) * m ^ 2 := by
  induction l with
  | nil => simp
  | cons a t ih =>
    simp only [List.map_cons, List.sum_cons, List.length_cons, ih]
    push_cast
    ring

/-- Claim C5: for every accumulator state and every non-finite input
(NaN, +Infinity, -Infinity), `add(value)` changes no field — the whole
object state is returned unchanged, so `count()`, `mean()`, `min()`, `max()`
and `last()` are all unchanged — raises no error, and returns the
not-a-number marker so the caller can detect the no-op. -/
theorem nonfinite_add_noop (s : Statistic) (v : Val) (h : v.isfinite = false) :
    s.add v = (s, Val.nan) := by
  cases v with
  | fin q => simp [Val.isfinite] at h
  | nan => rfl
  | posInf => rfl
  | negInf => rfl

/-- Witness for C5: adding NaN to a fresh accumulator leaves it unchanged and
returns NaN. -/
theorem nonfinite_add_noop_witness :
    (Statistic.init "Statistic").add Val.nan
      = (Statistic.init "Statistic", Val.nan) :=
  nonfinite_add_noop (Statistic.init "Statistic") Val.nan rfl

/-- Claim C7: for every accumulator state and every finite value `x`,
`reset()` followed by `add(x)` yields the same statistics state (all six
numeric fields) and the same returned mean as a freshly constructed
accumulator followed by `add(x)`, whatever name the fresh one is given. -/
theorem reset_add_eq_fresh_add (s : Statistic) (nm : String) (q : ℚ) :
    ((s.reset.add (Val.fin q)).1).stats
        = (((Statistic.init nm).add (Val.fin q)).1).stats ∧
    (s.reset.add (Val.fin q)).2 = ((Statistic.init nm).add (Val.fin q)).2 := by
  exact ⟨rfl, rfl⟩

/-- Claim C10: assignment `a = b` copies `b`'s count, last, min, max, sum and
sum-of-squares into `a` (so every statistics accessor of `a` subsequently
agrees with `b`) but leaves `a`'s name unchanged; whenever the two names
differed, `name()` still disagrees with `b` after the assignment. -/
theorem assign_copies_stats_keeps_name (a b : Statistic) :
    (a.assign b).stats = b.stats ∧ (a.assign b).name = a.name ∧
    (a.name ≠ b.name → (a.assign b).name ≠ b.name) := by
  exact ⟨rfl, rfl, fun h => h⟩

/-- Witness for C10: assigning between accumulators named "A" and "B" keeps
the target's name "A", distinct from "B". -/
theorem assign_copies_stats_keeps_name_witness :
    ((Statistic.init "A").assign (Statistic.init "B")).name
      ≠ (Statistic.init "B").name :=
  (assign_copies_stats_keeps_name (Statistic.init "A")
    (Statistic.init "B")).2.2 (by decide)

/-- Claim C3 (code bug, witnessed at the failing input): after adding the
single finite sample `-1` to a fresh accumulator, `max()` reports the
sentinel `std::numeric_limits<double>::min()` — the smallest positive
normal double, with which `max_` is initialised — rather than the true
maximum `-1`.  The initialiser needed `lowest()`, not `min()`. -/
theorem max_misses_negative_samples :
    (((Statistic.init "Statistic").add (Val.fin (-1))).1).max = DBL_MIN ∧
    DBL_MIN ≠ (-1 : ℚ) ∧ (0 : ℚ) < DBL_MIN := by
  refine ⟨?_, by norm_num [DBL_MIN], by norm_num [DBL_MIN]⟩
  norm_num [Statistic.add, Statistic.init, DBL_MIN, max_def]

/-- Claim C6: for every non-empty sequence of finite samples added to a fresh
accumulator, `mean()` afterwards equals the simple average `Σsᵢ / n` (exactly,
in the idealised rational arithmetic), and every `add` call on a finite value
returns the updated mean. -/
theorem mean_is_simple_average (nm : String) (l : List ℚ) (h : l ≠ []) :
    ((Statistic.init nm).addList l).mean = l.sum / (l.length : ℚ) ∧
    ∀ (s : Statistic) (q : ℚ),
      (s.add (Val.fin q)).2 = Val.fin (((s.add (Val.fin q)).1).mean) := by
  refine ⟨?_, fun s q => rfl⟩
  obtain ⟨h1, h2, _⟩ := addList_fields (Statistic.init nm) l
  rw [Statistic.mean, h1, h2]
  simp [Statistic.init]

/-- Witness for C6: adding `[1, 2, 3]` to a fresh accumulator gives
`mean() = (1 + 2 + 3) / 3`. -/
theorem mean_is_simple_average_witness :
    ((Statistic.init "Statistic").addList [1, 2, 3]).mean
      = ([1, 2, 3] : List ℚ).sum / (([1, 2, 3] : List ℚ).length : ℚ) :=
  (mean_is_simple_average "Statistic" [1, 2, 3] (by simp)).1

/-- Claim C1, amended: `std()` uses the population variance, not the
Bessel-corrected sample variance — for every non-empty sequence of finite
samples, `std()` equals `sqrt(ssum/n - mean^2)`, which is the two-pass
population standard deviation `sqrt(Σ(sᵢ - mean)² / n)`; it is `0` when
`count = 0` by the explicit guard (`stdSq` is the square of `std()`). -/
theorem std_is_population_std (nm : String) (l : List ℚ) (h : l ≠ []) :
    Real.sqrt ((((Statistic.init nm).addList l).stdSq : ℚ) : ℝ)
      = Real.sqrt
          (((l.map (fun x => (x - l.sum / (l.length : ℚ)) ^ 2)).sum
              / (l.length : ℚ) : ℚ) : ℝ) := by
  have hlen : l.length ≠ 0 := fun hh => h (List.length_eq_zero.mp hh)
  have hlenq : (l.length : ℚ) ≠ 0 := Nat.cast_ne_zero.mpr hlen
  obtain ⟨h1, h2, h3⟩ := addList_fields (Statistic.init nm) l
  have hn0 : ((Statistic.init nm).addList l).n ≠ 0 := by
    rw [h1]; simpa [Statistic.init] using hlen
  have hq : ((Statistic.init nm).addList l).stdSq
      = (l.map (fun x => (x - l.sum / (l.length : ℚ)) ^ 2)).sum
          / (l.length : ℚ) := by
    rw [Statistic.stdSq, if_neg hn0, Statistic.mean, h1, h2, h3, sum_sq_dev]
    simp only [Statistic.init]
    field_simp
    ring
  rw [hq]

/-- Witness for C1: for the samples `[1, 3]`, `std()` equals the two-pass
population standard deviation. -/
theorem std_is_population_std_witness :
    Real.sqrt ((((Statistic.init "Statistic").addList [1, 3]).stdSq : ℚ) : ℝ)
      = Real.sqrt
          (((([1, 3] : List ℚ).map
                (fun x => (x - ([1, 3] : List ℚ).sum
                    / (([1, 3] : List ℚ).length : ℚ)) ^ 2)).sum
              / (([1, 3] : List ℚ).length : ℚ) : ℚ) : ℝ) :=
  std_is_population_std "Statistic" [1, 3] (by simp)

/-- Counterexample to C1 as stated: on the samples `[1, 3]` the code's
`std()` is `sqrt(1) = 1` while the claimed Bessel-corrected value
`sqrt(m2 / (count - 1))` is `sqrt(2)`; the two differ. -/
theorem std_not_bessel_at_two_samples :
    Real.sqrt ((((Statistic.init "Statistic").addList [1, 3]).stdSq : ℚ) : ℝ)
      ≠ Real.sqrt
          ((((Statistic.init "Statistic").addList [1, 3]).stdSpecSq : ℚ) : ℝ) := by
  have h1 : ((Statistic.init "Statistic").addList [1, 3]).stdSq = 1 := by
    norm_num [Statistic.addList, Statistic.add, Statistic.init,
      Statistic.stdSq, Statistic.mean]
  have h2 : ((Statistic.init "Statistic").addList [1, 3]).stdSpecSq = 2 := by
    norm_num [Statistic.addList, Statistic.add, Statistic.init,
      Statistic.stdSpecSq, Statistic.mean]
  rw [h1, h2]
  have hA : ((1 : ℚ) : ℝ) = 1 := by norm_num
  have hB : ((2 : ℚ) : ℝ) = 2 := by norm_num
  rw [hA, hB, Real.sqrt_one]
  intro hc
  have hlt : Real.sqrt 1 < Real.sqrt 2 :=
    Real.sqrt_lt_sqrt (by norm_num) (by norm_num)
  rw [Real.sqrt_one, ← hc] at hlt
  exact lt_irrefl _ hlt

/-- Claim C4 (the capped variant is modelled from the spec, as only the
uncapped accumulator is under `src/`): starting from a fresh accumulator
capped at `c`, `count()` never exceeds `c` no matter which and how many
finite samples are added, and once the cap is reached a further `add`
leaves `count` pinned at `c`. -/
theorem capped_count_le (c : ℕ) (l : List ℚ) :
    (l.foldl CappedStatistic.addFin (CappedStatistic.init (some c))).n ≤ c ∧
    ∀ (s : CappedStatistic) (q : ℚ),
      s.cap = some c → c ≤ s.n → (s.addFin q).n = c := by
  constructor
  · have aux : ∀ (t : List ℚ) (s : CappedStatistic),
        s.cap = some c → s.n ≤ c →
        (t.foldl CappedStatistic.addFin s).n ≤ c := by
      intro t
      induction t with
      | nil => intro s _ h; simpa using h
      | cons a t2 ih =>
        intro s hcap h
        rw [List.foldl_cons]
        refine ih _ ?_ ?_
        · simpa [CappedStatistic.addFin] using hcap
        · simp only [CappedStatistic.addFin, hcap]
          split <;> omega
    exact aux l _ rfl (by simp [CappedStatistic.init])
  · intro s q hcap h
    simp only [CappedStatistic.addFin, hcap]
    simp [h]

/-- Witness for C4: with cap `2`, adding three samples to a fresh capped
accumulator leaves `count ≤ 2`, and an `add` on a state already at the cap
keeps `count = 2`. -/
theorem capped_count_le_witness :
    (([1, 2, 3] : List ℚ).foldl CappedStatistic.addFin
        (CappedStatistic.init (some 2))).n ≤ 2 ∧
    ((⟨some 2, 2, 5, 0, 0, none, none⟩ : CappedStatistic).addFin 7).n = 2 :=
  ⟨(capped_count_le 2 [1, 2, 3]).1,
   (capped_count_le 2 [1, 2, 3]).2 ⟨some 2, 2, 5, 0, 0, none, none⟩ 7 rfl
     (by norm_num)⟩

/-- Claim C2, amended: for a parent node with one child, both holding
samples, the rendered report is the parent line followed by the child line;
the child's percentage field is present exactly when the parent total is
non-zero, and then equals the C-style `(int)` truncation toward zero of
`100 * child_total / parent_total` — truncation, not rounding.  The
top-level call passes parent total `0`, so the root's own percentage is
omitted rather than divided. -/
theorem render_pct_truncates (ps cs : Statistic) (pt ct : ℤ)
    (hp : 1 ≤ ps.n) (hc : 1 ≤ cs.n) :
    Timer.render (Timer.mk ps pt [Timer.mk cs ct []]) 0 0 =
      [RenderLine.line 0 ps.name ps.sum none ps.n,
       RenderLine.line 1 cs.name cs.sum
         (if ps.sum ≠ 0 then some (castToInt (100 * cs.sum / ps.sum))
          else none) cs.n] := by
  have hp2 : ¬ ps.n < 1 := by omega
  have hc2 : ¬ cs.n < 1 := by omega
  simp only [Timer.render, Timer.renderChildren, pctField, hp2, hc2,
    if_false, List.append_nil]
  simp [pctField]

/-- Witness for C2: the concrete parent with total `3` and child with total
`2` render as the two structured lines, the child carrying the truncated
percentage field. -/
theorem render_pct_truncates_witness :
    Timer.render (Timer.mk pStat 0 [Timer.mk cStat 0 []]) 0 0 =
      [RenderLine.line 0 pStat.name pStat.sum none pStat.n,
       RenderLine.line 1 cStat.name cStat.sum
         (if pStat.sum ≠ 0 then some (castToInt (100 * cStat.sum / pStat.sum))
          else none) cStat.n] :=
  render_pct_truncates pStat cStat 0 0 (by decide) (by decide)

/-- Counterexample to C2 as stated: with child total `2` and parent total
`3` the code renders the percentage `66` — the `(int)` truncation of
`66.66...` — whereas `round(100 * 2 / 3) = 67`. -/
theorem render_pct_not_round :
    Timer.render (Timer.mk pStat 0 [Timer.mk cStat 0 []]) 0 0 =
      [RenderLine.line 0 "P" 3 none 1,
       RenderLine.line 1 "C" 2 (some 66) 1] ∧
    round (100 * (2 : ℚ) / 3) = (67 : ℤ) ∧ (66 : ℤ) ≠ 67 := by
  refine ⟨?_, by norm_num [round_eq], by decide⟩
  norm_num [Timer.render, Timer.renderChildren, pStat, cStat, pctField,
    castToInt]

/-- Claim C8: `toc()` at clock reading `now` feeds the elapsed seconds since
the recorded start, `(now - t_start_) / 10^9`, into the owned accumulator
through `add`, re-records `now` as the new pending start (lap-timer
behaviour), keeps the nested timers, and returns the accumulator's
post-update mean rather than this call's elapsed duration. -/
theorem toc_adds_elapsed_relaps_returns_mean (t : Timer) (now : ℤ) :
    ((t.toc now).1).stat
        = (t.stat.add (Val.fin (((now - t.tstart : ℤ) : ℚ) / 1000000000))).1 ∧
    ((t.toc now).1).tstart = now ∧
    ((t.toc now).1).nested = t.nested ∧
    (t.toc now).2 = Val.fin (((t.toc now).1).stat.mean) := by
  cases t with
  | mk s t0 cs => exact ⟨rfl, rfl, rfl, rfl⟩

/-- Claim C9: calling `toc()` on a timer whose `tic()` was never called (or
that was just `reset()`) does not discard the sample: the elapsed time is
measured from the default-constructed epoch time point `0`, so the duration
`now / 10^9` is added to the accumulator, `count()` becomes `1`, and that
(typically enormous) duration is returned as the mean of the single sample. -/
theorem toc_without_tic_adds_epoch_elapsed (nm : String) (now : ℤ) :
    (Timer.init nm).tstart = 0 ∧
    (((Timer.init nm).toc now).1).stat.n = 1 ∧
    (((Timer.init nm).toc now).1).stat.last = (now : ℚ) / 1000000000 ∧
    ((Timer.init nm).toc now).2 = Val.fin ((now : ℚ) / 1000000000) ∧
    ∀ t : Timer, (t.reset).tstart = 0 ∧ ((t.reset.toc now).1).stat.n = 1 := by
  refine ⟨rfl, rfl, ?_, ?_, ?_⟩
  · simp [Timer.init, Timer.toc, Timer.stat, Statistic.add, Statistic.init]
  · simp [Timer.init, Timer.toc, Statistic.add, Statistic.init,
      Timer.stat, Statistic.mean]
  · intro t
    cases t with
    | mk s t0 cs =>
      exact ⟨rfl, rfl⟩

end Effortless
